import Mathlib

set_option maxRecDepth 8000

/-!
Shallow embedding of the EC access and thermal-control core of the
msi-center-linux repository (src/ec/mod.rs, src/fan/mod.rs,
src/scenario/mod.rs), together with theorems settling the frozen claims.

Modelling conventions:
* machine bytes are `Nat`s; wrapping casts (`as u8`) are written `% 256`
  where they can matter;
* the EC register file is modelled as a total map `Nat → Nat`, and every
  EC operation also records the sequence of byte writes it issues in a
  trace, mirroring the order of `write` calls in the source;
* `f32` arithmetic in the curve interpolator and the tachometer scaling is
  modelled with exact rationals; the claims proved about those functions
  (range bounds after the explicit `clamp(0.0, 100.0)`, endpoint values
  and monotonicity on integer inputs) are insensitive to `f32` rounding
  because the clamp bounds and the endpoint computations are exact;
* fallible I/O is modelled with `Option`/`Except`, and probe/sensor
  environments are explicit records of the outcomes the surrounding
  system can produce.
-/

/-! ## Error types (src/ec/mod.rs, src/fan/mod.rs) -/

/-- EcError from src/ec/mod.rs. `OpenError` abstracts the carried
`std::io::Error` payload of the non-permission open failure. -/
inductive EcError where
  | OpenError : EcError
  | PermissionDenied : EcError
  | NotSupported : EcError
  | InvalidAddress : Nat → EcError
  | IoFailed : EcError
deriving DecidableEq

/-- FanError from src/fan/mod.rs; `EcErr` wraps an EcError, `HwmonErr`
abstracts the string payload. -/
inductive FanError where
  | EcErr : EcError → FanError
  | InvalidSpeed : Nat → FanError
  | FanNotFound : FanError
  | HwmonErr : FanError
deriving DecidableEq

/-! ## EC register addresses (src/ec/mod.rs constants) -/

def MSI_ADDRESS_CPU_FAN_SPEED : Nat := 0xC8
def MSI_ADDRESS_GPU_FAN_SPEED : Nat := 0xCA
def MSI_ADDRESS_CPU_TEMP : Nat := 0x68
def MSI_ADDRESS_GPU_TEMP : Nat := 0x80
def MSI_ADDRESS_FAN_MODE : Nat := 0xD4
def MSI_ADDRESS_COOLER_BOOST : Nat := 0x98
def MSI_ADDRESS_SHIFT_MODE : Nat := 0xD2
def MSI_ADDRESS_SUPER_BATTERY : Nat := 0xEB
def MSI_ADDRESS_FAN1_BASE : Nat := 0x72
def MSI_ADDRESS_FAN2_BASE : Nat := 0x8A

/-! ## Backend probing (src/ec/mod.rs, EmbeddedController::new) -/

/-- Outcome of `OpenOptions::open("/dev/port")`: success, an error whose
kind is `PermissionDenied`, or any other io error. -/
inductive OpenOutcome where
  | success : OpenOutcome
  | permissionDenied : OpenOutcome
  | otherFailure : OpenOutcome
deriving DecidableEq

/-- The facts about the running system that the three probes inspect. -/
structure ProbeEnv where
  dev_port : OpenOutcome
  acpi_debug_exists : Bool
  msi_ec_exists : Bool
deriving DecidableEq

/-- The fields of `struct EmbeddedController`; the open `File` handle is
abstracted to whether one is held. -/
structure EmbeddedController where
  has_port_file : Bool
  use_acpi : Bool
  acpi_path : Option String
deriving DecidableEq

/-- `EmbeddedController::try_direct_port_access`: open `/dev/port`
read+write, mapping a `PermissionDenied` io error kind to
`EcError::PermissionDenied` and any other failure to `OpenError`. -/
def try_direct_port_access (env : ProbeEnv) : Except EcError EmbeddedController :=
  match env.dev_port with
  | .success => .ok { has_port_file := true, use_acpi := false, acpi_path := none }
  | .permissionDenied => .error .PermissionDenied
  | .otherFailure => .error .OpenError

/-- `EmbeddedController::try_acpi_access`. -/
def try_acpi_access (env : ProbeEnv) : Except EcError EmbeddedController :=
  if env.acpi_debug_exists then
    .ok { has_port_file := false, use_acpi := true,
          acpi_path := some "/sys/kernel/debug/ec/ec0/io" }
  else .error .NotSupported

/-- `EmbeddedController::try_msi_ec_driver`. -/
def try_msi_ec_driver (env : ProbeEnv) : Except EcError EmbeddedController :=
  if env.msi_ec_exists then
    .ok { has_port_file := false, use_acpi := true,
          acpi_path := some "/sys/devices/platform/msi-ec" }
  else .error .NotSupported

/-- `EmbeddedController::new`: the ordered probe cascade. Each probe's
error is discarded by the `if let Ok(ec)` pattern; when all three fail
the result is `NotSupported`. -/
def EmbeddedController.new (env : ProbeEnv) : Except EcError EmbeddedController :=
  match try_direct_port_access env with
  | .ok ec => .ok ec
  | .error _ =>
    match try_acpi_access env with
    | .ok ec => .ok ec
    | .error _ =>
      match try_msi_ec_driver env with
      | .ok ec => .ok ec
      | .error _ => .error .NotSupported

/-! ## Port-backend polling (wait_ec_ibf_clear / wait_ec_obf_set) -/

/-- One `for _ in 0..fuel` polling loop on the direct port backend.
`status i` is the byte the i-th status-port read returns; `bitOk` is the
exit test on that byte. The second component counts status reads
performed. -/
def pollLoop (bitOk : Nat → Bool) (status : Nat → Nat) :
    Nat → Nat → Except EcError Unit × Nat
  | 0, reads => (.error .IoFailed, reads)
  | fuel + 1, reads =>
    if bitOk (status reads) then (.ok (), reads + 1)
    else pollLoop bitOk status fuel (reads + 1)

/-- `wait_ec_ibf_clear` on the port backend: up to 10000 reads of the
status port, exiting when `(status & EC_SC_IBF) == 0` with IBF = 0x02. -/
def wait_ec_ibf_clear (status : Nat → Nat) : Except EcError Unit × Nat :=
  pollLoop (fun b => b &&& 0x02 == 0) status 10000 0

/-- `wait_ec_obf_set` on the port backend: up to 10000 reads of the
status port, exiting when `(status & EC_SC_OBF) != 0` with OBF = 0x01. -/
def wait_ec_obf_set (status : Nat → Nat) : Except EcError Unit × Nat :=
  pollLoop (fun b => b &&& 0x01 != 0) status 10000 0

/-! ## Fan mode (src/fan/mod.rs) -/

/-- FanMode enum. -/
inductive FanMode where
  | Auto : FanMode
  | Silent : FanMode
  | Basic : FanMode
  | Advanced : FanMode
deriving DecidableEq

/-- Numeric value of a fan mode (`mode as u8` on the Rust enum). -/
def FanMode.toNat : FanMode → Nat
  | .Auto => 0
  | .Silent => 1
  | .Basic => 2
  | .Advanced => 3

/-- `impl From<u8> for FanMode`: 0..3 map to the four modes, anything
else decodes as Auto. -/
def FanMode.ofU8 : Nat → FanMode
  | 0 => .Auto
  | 1 => .Silent
  | 2 => .Basic
  | 3 => .Advanced
  | _ => .Auto

/-! ## Shift mode and scenarios (src/scenario/mod.rs) -/

/-- ShiftMode enum. -/
inductive ShiftMode where
  | EcoSilent : ShiftMode
  | Comfort : ShiftMode
  | Sport : ShiftMode
  | Turbo : ShiftMode
deriving DecidableEq

/-- Byte code of a shift mode (`mode as u8` on the Rust enum). -/
def ShiftMode.toNat : ShiftMode → Nat
  | .EcoSilent => 0xC2
  | .Comfort => 0xC1
  | .Sport => 0xC0
  | .Turbo => 0xC4

/-- `impl From<u8> for ShiftMode`: the four known byte codes, any other
byte decodes as Comfort. -/
def ShiftMode.ofU8 (b : Nat) : ShiftMode :=
  if b = 0xC2 then .EcoSilent
  else if b = 0xC1 then .Comfort
  else if b = 0xC0 then .Sport
  else if b = 0xC4 then .Turbo
  else .Comfort

/-- UserScenario enum. -/
inductive UserScenario where
  | Silent : UserScenario
  | Balanced : UserScenario
  | HighPerformance : UserScenario
  | Turbo : UserScenario
  | SuperBattery : UserScenario
  | Custom : UserScenario
deriving DecidableEq

/-! ## Fan curves (src/fan/mod.rs) -/

/-- FanCurvePoint: one temp/speed pair. -/
structure FanCurvePoint where
  temp : Nat
  speed : Nat
deriving DecidableEq

/-- FanCurve: a list of points. -/
structure FanCurve where
  points : List FanCurvePoint
deriving DecidableEq

/-- `impl Default for FanCurve`. -/
def FanCurve.defaultCurve : FanCurve :=
  { points := [⟨40, 0⟩, ⟨50, 30⟩, ⟨60, 50⟩, ⟨70, 70⟩, ⟨80, 90⟩, ⟨90, 100⟩] }

/-- `FanCurve::silent`. -/
def FanCurve.silentCurve : FanCurve :=
  { points := [⟨50, 0⟩, ⟨60, 20⟩, ⟨70, 40⟩, ⟨80, 60⟩, ⟨90, 80⟩, ⟨95, 100⟩] }

/-- `FanCurve::performance`. -/
def FanCurve.performanceCurve : FanCurve :=
  { points := [⟨35, 30⟩, ⟨45, 50⟩, ⟨55, 70⟩, ⟨65, 85⟩, ⟨75, 100⟩, ⟨85, 100⟩] }

/-- The exact value the interpolation computes inside the bracket branch
of `get_speed_for_temp`:
`p1.speed as f32 + (temp_offset / temp_range) * speed_range`, with the
two u8 differences taken after the branch guard ensures they do not
underflow. `f32` arithmetic is modelled exactly in `ℚ`. -/
def interpQ (p1 p2 : FanCurvePoint) (T : Nat) : ℚ :=
  (p1.speed : ℚ) +
    (((T - p1.temp : Nat) : ℚ) / ((p2.temp - p1.temp : Nat) : ℚ)) *
      ((p2.speed : ℚ) - (p1.speed : ℚ))

/-- `interpolated.clamp(0.0, 100.0) as u8`: clamp into [0, 100], then the
float-to-integer cast truncates toward zero (= floor on the clamped
nonnegative value). -/
def clampToByte (q : ℚ) : Nat := (⌊max 0 (min q 100)⌋).toNat

/-- Interpolated speed for the bracket `p1, p2` at temperature `T`. -/
def interpSpeed (p1 p2 : FanCurvePoint) (T : Nat) : Nat :=
  clampToByte (interpQ p1 p2 T)

/-- The `for i in 0..self.points.len() - 1` bracket search of
`get_speed_for_temp`: walk adjacent pairs, returning the interpolated
speed for the first bracket with `p1.temp <= T && T <= p2.temp`, and the
fall-through constant 50 when the loop exhausts. -/
def findBracket (T : Nat) : FanCurvePoint → List FanCurvePoint → Nat
  | _, [] => 50
  | p1, p2 :: rest =>
    if p1.temp ≤ T ∧ T ≤ p2.temp then interpSpeed p1 p2 T
    else findBracket T p2 rest

/-- `FanCurve::get_speed_for_temp` on the underlying point list:
empty list returns 50; `T <= first.temp` returns the first speed;
`T >= last.temp` returns the last speed; otherwise the bracket search. -/
def getSpeedAux (l : List FanCurvePoint) (T : Nat) : Nat :=
  match l with
  | [] => 50
  | p :: ps =>
    if T ≤ p.temp then p.speed
    else if (ps.getLastD p).temp ≤ T then (ps.getLastD p).speed
    else findBracket T p ps

/-- `FanCurve::get_speed_for_temp`. -/
def FanCurve.get_speed_for_temp (c : FanCurve) (T : Nat) : Nat :=
  getSpeedAux c.points T

/-- Points sorted by temperature, strictly ascending (data-model
invariant: ascending, no equal consecutive temperatures). -/
abbrev sortedByTemp (l : List FanCurvePoint) : Prop :=
  List.Chain' (fun a b => a.temp < b.temp) l

/-- The speed sequence of the curve is monotonic non-decreasing. -/
abbrev speedsMono (l : List FanCurvePoint) : Prop :=
  List.Chain' (fun a b => a.speed ≤ b.speed) l

/-- Data-model invariant: every point speed is a percentage. -/
abbrev speedsLe100 (l : List FanCurvePoint) : Prop :=
  ∀ p ∈ l, p.speed ≤ 100

/-- `a` and `b` occur as adjacent elements (in this order) of the list. -/
inductive Adj (a b : FanCurvePoint) : List FanCurvePoint → Prop where
  | head (l : List FanCurvePoint) : Adj a b (a :: b :: l)
  | tail (x : FanCurvePoint) {l : List FanCurvePoint} : Adj a b l → Adj a b (x :: l)

/-! ## EC register-file machine

All claims about EC effects are stated over an abstract machine holding
the 256-byte register file (reads and writes on a selected, working
backend both act on it) plus the trace of byte writes issued, in order.
The fan controller's `write_ec_byte`/`read_ec_byte` debugfs path and the
transport's `write_byte`/`read_byte` address the same hardware register
file, so both are modelled by the same write/read. -/

structure EcM where
  regs : Nat → Nat
  trace : List (Nat × Nat)

/-- A byte write to the EC: update the register and append to the trace. -/
def ecWrite (a v : Nat) (m : EcM) : EcM :=
  { regs := fun x => if x = a then v else m.regs x,
    trace := m.trace ++ [(a, v)] }

/-- A byte read from the EC. -/
def ecRead (a : Nat) (m : EcM) : Nat := m.regs a

/-- Speed percentage encoded as a PWM byte:
`((percent as u16 * 255) / 100) as u8`. -/
def pwmOfPercent (p : Nat) : Nat := ((p * 255) / 100) % 256

/-- `FanController::set_fan_mode`: write the mode's numeric value to
FAN_MODE (0xD4). -/
def set_fan_mode (mode : FanMode) (m : EcM) : EcM :=
  ecWrite MSI_ADDRESS_FAN_MODE mode.toNat m

/-- `FanController::set_cooler_boost`: read COOLER_BOOST (0x98), set or
clear bit 7, write the result back. -/
def set_cooler_boost (enabled : Bool) (m : EcM) : EcM :=
  let current := ecRead MSI_ADDRESS_COOLER_BOOST m
  ecWrite MSI_ADDRESS_COOLER_BOOST
    (if enabled then current ||| 0x80 else current &&& 0x7F) m

/-- The body of `apply_fan_curve`'s `for (i, point)` loop over the taken
points: write `base + i*2 ← temp` then `base + i*2 + 1 ← pwm(speed)`. -/
def applyCurvePoints (base : Nat) : Nat → List FanCurvePoint → EcM → EcM
  | _, [], m => m
  | i, p :: ps, m =>
    applyCurvePoints base (i + 1) ps
      (ecWrite (base + i * 2 + 1) (pwmOfPercent p.speed)
        (ecWrite (base + i * 2) p.temp m))

/-- `FanController::apply_fan_curve`: program `min(len, 6)` temp/speed
pairs at the base address. -/
def apply_fan_curve (base : Nat) (curve : FanCurve) (m : EcM) : EcM :=
  applyCurvePoints base 0 (curve.points.take (min curve.points.length 6)) m

/-- One iteration of `set_manual_fan_speed`'s `for i in 0..6` loop. -/
def manualStep (cv gv i : Nat) (m : EcM) : EcM :=
  ecWrite (MSI_ADDRESS_FAN2_BASE + i * 2 + 1) gv
    (ecWrite (MSI_ADDRESS_FAN2_BASE + i * 2) 0
      (ecWrite (MSI_ADDRESS_FAN1_BASE + i * 2 + 1) cv
        (ecWrite (MSI_ADDRESS_FAN1_BASE + i * 2) 0 m)))

/-- The `for i in 0..6` loop of `set_manual_fan_speed`, with `i` the
current index and the second argument the remaining iteration count. -/
def manualLoop (cv gv : Nat) : Nat → Nat → EcM → EcM
  | _, 0, m => m
  | i, k + 1, m => manualLoop cv gv (i + 1) k (manualStep cv gv i m)

/-- `FanController::set_manual_fan_speed`: reject a percentage above 100
with `InvalidSpeed(cpu_percent.max(gpu_percent))` before any write; else
switch to Advanced and flatten both curves at the scaled PWM values. -/
def set_manual_fan_speed (cpu_percent gpu_percent : Nat) (m : EcM) :
    Except FanError Unit × EcM :=
  if cpu_percent > 100 ∨ gpu_percent > 100 then
    (.error (.InvalidSpeed (max cpu_percent gpu_percent)), m)
  else
    let m1 := set_fan_mode .Advanced m
    let cv := pwmOfPercent cpu_percent
    let gv := pwmOfPercent gpu_percent
    (.ok (), manualLoop cv gv 0 6 m1)

/-! ## Scenario settings and manager (src/scenario/mod.rs) -/

/-- ScenarioSettings bundle. -/
structure ScenarioSettings where
  shift_mode : ShiftMode
  fan_mode : FanMode
  cooler_boost : Bool
  super_battery : Bool
  cpu_fan_curve : Option FanCurve
  gpu_fan_curve : Option FanCurve
deriving DecidableEq

/-- `ScenarioSettings::silent`. -/
def ScenarioSettings.silentSettings : ScenarioSettings :=
  { shift_mode := .EcoSilent, fan_mode := .Silent, cooler_boost := false,
    super_battery := false, cpu_fan_curve := some FanCurve.silentCurve,
    gpu_fan_curve := some FanCurve.silentCurve }

/-- `ScenarioSettings::balanced`. -/
def ScenarioSettings.balancedSettings : ScenarioSettings :=
  { shift_mode := .Comfort, fan_mode := .Auto, cooler_boost := false,
    super_battery := false, cpu_fan_curve := some FanCurve.defaultCurve,
    gpu_fan_curve := some FanCurve.defaultCurve }

/-- `ScenarioSettings::high_performance`. -/
def ScenarioSettings.highPerformanceSettings : ScenarioSettings :=
  { shift_mode := .Sport, fan_mode := .Basic, cooler_boost := false,
    super_battery := false, cpu_fan_curve := some FanCurve.performanceCurve,
    gpu_fan_curve := some FanCurve.performanceCurve }

/-- `ScenarioSettings::turbo`. -/
def ScenarioSettings.turboSettings : ScenarioSettings :=
  { shift_mode := .Turbo, fan_mode := .Advanced, cooler_boost := true,
    super_battery := false, cpu_fan_curve := some FanCurve.performanceCurve,
    gpu_fan_curve := some FanCurve.performanceCurve }

/-- `ScenarioSettings::super_battery`. -/
def ScenarioSettings.superBatterySettings : ScenarioSettings :=
  { shift_mode := .EcoSilent, fan_mode := .Silent, cooler_boost := false,
    super_battery := true, cpu_fan_curve := some FanCurve.silentCurve,
    gpu_fan_curve := some FanCurve.silentCurve }

/-- The settings bundle `set_scenario` synthesizes for a scenario;
`Custom` has none (`set_scenario` returns without touching the EC). -/
def settingsFor : UserScenario → Option ScenarioSettings
  | .Silent => some .silentSettings
  | .Balanced => some .balancedSettings
  | .HighPerformance => some .highPerformanceSettings
  | .Turbo => some .turboSettings
  | .SuperBattery => some .superBatterySettings
  | .Custom => none

/-- `ScenarioManager::apply_settings`: the strictly ordered write
sequence — SHIFT_MODE, SUPER_BATTERY, fan mode, cooler boost, then the
optional CPU and GPU curves. -/
def apply_settings (s : ScenarioSettings) (m : EcM) : EcM :=
  let m1 := ecWrite MSI_ADDRESS_SHIFT_MODE s.shift_mode.toNat m
  let m2 := ecWrite MSI_ADDRESS_SUPER_BATTERY
    (if s.super_battery then 0x01 else 0x00) m1
  let m3 := set_fan_mode s.fan_mode m2
  let m4 := set_cooler_boost s.cooler_boost m3
  let m5 := match s.cpu_fan_curve with
    | some c => apply_fan_curve MSI_ADDRESS_FAN1_BASE c m4
    | none => m4
  match s.gpu_fan_curve with
  | some c => apply_fan_curve MSI_ADDRESS_FAN2_BASE c m5
  | none => m5

/-- `ScenarioManager::set_scenario` (its EC effect): synthesize the
settings and apply them; `Custom` is a no-op. -/
def set_scenario (sc : UserScenario) (m : EcM) : EcM :=
  match settingsFor sc with
  | some s => apply_settings s m
  | none => m

/-- ScenarioInfo read-back record. -/
structure ScenarioInfo where
  current_scenario : UserScenario
  shift_mode : ShiftMode
  super_battery : Bool
deriving DecidableEq

/-- `ScenarioManager::detect_scenario`: super-battery dominates, else
the shift mode decides. -/
def detect_scenario (shift_mode : ShiftMode) (super_battery : Bool) : UserScenario :=
  if super_battery then .SuperBattery
  else
    match shift_mode with
    | .EcoSilent => .Silent
    | .Comfort => .Balanced
    | .Sport => .HighPerformance
    | .Turbo => .Turbo

/-- `ScenarioManager::get_current_info`: read SHIFT_MODE and
SUPER_BATTERY, decode, derive the scenario. -/
def get_current_info (m : EcM) : ScenarioInfo :=
  let shift_mode_raw := ecRead MSI_ADDRESS_SHIFT_MODE m
  let super_battery_raw := ecRead MSI_ADDRESS_SUPER_BATTERY m
  let sm := ShiftMode.ofU8 shift_mode_raw
  let sb := super_battery_raw &&& 0x01 != 0
  { current_scenario := detect_scenario sm sb,
    shift_mode := sm,
    super_battery := sb }

/-! ## Sensor acquisition and get_fan_info (src/fan/mod.rs) -/

/-- FanInfo read-back record. -/
structure FanInfo where
  cpu_fan_rpm : Nat
  gpu_fan_rpm : Nat
  cpu_fan_percent : Nat
  gpu_fan_percent : Nat
  cpu_temp : Nat
  gpu_temp : Nat
  fan_mode : FanMode
  cooler_boost : Bool
deriving DecidableEq

/-- The outcomes of the underlying reads `get_fan_info` composes:
the hwmon temperature helpers, the debugfs `read_ec_byte` path, and the
EC transport `read_byte` path. -/
structure SensorEnv where
  hwmonCpuTemp : Option Nat
  hwmonGpuTemp : Option Nat
  dbg : Nat → Option Nat
  ecRd : Nat → Except EcError Nat

/-- Tachometer percent: `((raw as f32 / 150.0) * 100.0).clamp(0.0, 100.0)
as u8`, with `f32` modelled in `ℚ`. -/
def fanPercent (raw : Nat) : Nat :=
  clampToByte (((raw : ℚ) / 150) * 100)

/-- One probe of `read_fan_rpm_from_ec`: a debugfs read that yields a
positive raw byte produces `(raw * 100, percent)`. -/
def readFanRpmAt (env : SensorEnv) (address : Nat) : Option (Nat × Nat) :=
  match env.dbg address with
  | some raw => if raw > 0 then some (raw * 100, fanPercent raw) else none
  | none => none

/-- `FanController::read_fan_rpm_from_ec`: primary tach register, then
the realtime alias at primary+1, else (0, 0). -/
def read_fan_rpm_from_ec (env : SensorEnv) (fan_num : Nat) : Nat × Nat :=
  let address := if fan_num = 1 then 0xC8 else 0xCA
  let realtime_addr := if fan_num = 1 then 0xC9 else 0xCB
  match readFanRpmAt env address with
  | some r => r
  | none =>
    match readFanRpmAt env realtime_addr with
    | some r => r
    | none => (0, 0)

/-- `FanController::get_fan_info`: every acquisition degrades through
fallbacks to a default; the function always returns Ok. -/
def get_fan_info (env : SensorEnv) : Except FanError FanInfo :=
  let cpu_temp :=
    ((env.hwmonCpuTemp.orElse fun _ => env.dbg MSI_ADDRESS_CPU_TEMP).orElse
      fun _ => (env.ecRd MSI_ADDRESS_CPU_TEMP).toOption).getD 0
  let gpu_temp :=
    ((env.hwmonGpuTemp.orElse fun _ => env.dbg MSI_ADDRESS_GPU_TEMP).orElse
      fun _ => (env.ecRd MSI_ADDRESS_GPU_TEMP).toOption).getD 0
  let cpuFan := read_fan_rpm_from_ec env 1
  let gpuFan := read_fan_rpm_from_ec env 2
  let fan_mode_raw :=
    ((env.dbg MSI_ADDRESS_FAN_MODE).orElse
      fun _ => (env.ecRd MSI_ADDRESS_FAN_MODE).toOption).getD 0
  let cooler_boost_raw :=
    ((env.dbg MSI_ADDRESS_COOLER_BOOST).orElse
      fun _ => (env.ecRd MSI_ADDRESS_COOLER_BOOST).toOption).getD 0
  .ok
    { cpu_fan_rpm := cpuFan.1,
      gpu_fan_rpm := gpuFan.1,
      cpu_fan_percent := cpuFan.2,
      gpu_fan_percent := gpuFan.2,
      cpu_temp := cpu_temp,
      gpu_temp := gpu_temp,
      fan_mode := FanMode.ofU8 (fan_mode_raw &&& 0x0F),
      cooler_boost := cooler_boost_raw &&& 0x80 != 0 }

/-- A concrete machine with zeroed registers and an empty trace, used as
a sample input by witnesses. -/
def emptyEc : EcM := { regs := fun _ => 0, trace := [] }

/-- A sensor environment in which every underlying read fails. -/
def allFailEnv : SensorEnv :=
  { hwmonCpuTemp := none, hwmonGpuTemp := none,
    dbg := fun _ => none, ecRd := fun _ => .error .IoFailed }

/-! ## Helper lemmas -/

/-- Reading a register after a write. -/
theorem ecWrite_regs (a v : Nat) (m : EcM) (x : Nat) :
    (ecWrite a v m).regs x = if x = a then v else m.regs x := rfl

/-- A polling loop whose exit test never fires consumes all its fuel,
performing one status read per iteration, and fails. -/
theorem pollLoop_never_exits (bitOk : Nat → Bool) (status : Nat → Nat)
    (h : ∀ i, bitOk (status i) = false) :
    ∀ fuel reads, pollLoop bitOk status fuel reads = (.error .IoFailed, reads + fuel) := by
  intro fuel
  induction fuel with
  | zero => intro reads; simp [pollLoop]
  | succ n ih =>
    intro reads
    have hstep : pollLoop bitOk status (n + 1) reads = pollLoop bitOk status n (reads + 1) := by
      simp only [pollLoop, h reads, Bool.false_eq_true, if_false]
    have harith : reads + 1 + n = reads + (n + 1) := by omega
    rw [hstep, ih (reads + 1), harith]

/-- A polling loop performs at most `fuel` additional status reads. -/
theorem pollLoop_reads_le (bitOk : Nat → Bool) (status : Nat → Nat) :
    ∀ fuel reads, (pollLoop bitOk status fuel reads).2 ≤ reads + fuel := by
  intro fuel
  induction fuel with
  | zero => intro reads; simp [pollLoop]
  | succ n ih =>
    intro reads
    simp only [pollLoop]
    split
    · show reads + 1 ≤ reads + (n + 1)
      omega
    · exact le_trans (ih (reads + 1)) (by omega)

/-! ## Claim theorems -/

/-- Claim C1, counterexample: with `/dev/port` opening denied and no
other backend available, `EmbeddedController::new` returns NotSupported,
not the PermissionDenied error the claim requires for every such probe
outcome. -/
theorem new_permission_denied_counterexample :
    EmbeddedController.new ⟨.permissionDenied, false, false⟩ = .error .NotSupported ∧
    (Except.error EcError.NotSupported : Except EcError EmbeddedController) ≠
      .error EcError.PermissionDenied := by
  refine ⟨rfl, ?_⟩
  intro h
  simp at h

/-- Claim C1, amended: `new()` never surfaces PermissionDenied — the
`if let Ok` cascade discards the direct-port probe's error and falls
through to the ACPI debug and vendor driver probes, returning
NotSupported when those also fail. -/
theorem new_falls_through_on_permission_denied (env : ProbeEnv) :
    EmbeddedController.new env ≠ .error EcError.PermissionDenied ∧
    (env.dev_port = .permissionDenied → env.acpi_debug_exists = true →
      EmbeddedController.new env =
        .ok ⟨false, true, some "/sys/kernel/debug/ec/ec0/io"⟩) ∧
    (env.dev_port = .permissionDenied → env.acpi_debug_exists = false →
      env.msi_ec_exists = false →
      EmbeddedController.new env = .error EcError.NotSupported) := by
  obtain ⟨d, a, ms⟩ := env
  cases d <;> cases a <;> cases ms <;>
    simp [EmbeddedController.new, try_direct_port_access, try_acpi_access,
      try_msi_ec_driver]

/-- Claim C1 witness for the amended theorem. -/
theorem new_falls_through_witness :
    EmbeddedController.new ⟨.permissionDenied, false, false⟩ ≠
      .error EcError.PermissionDenied ∧
    EmbeddedController.new ⟨.permissionDenied, false, false⟩ =
      .error EcError.NotSupported ∧
    EmbeddedController.new ⟨.permissionDenied, true, false⟩ =
      .ok ⟨false, true, some "/sys/kernel/debug/ec/ec0/io"⟩ :=
  ⟨(new_falls_through_on_permission_denied ⟨.permissionDenied, false, false⟩).1,
   (new_falls_through_on_permission_denied ⟨.permissionDenied, false, false⟩).2.2 rfl rfl rfl,
   (new_falls_through_on_permission_denied ⟨.permissionDenied, true, false⟩).2.1 rfl rfl⟩

/-- Claim C3: for every byte, decoding as in `get_fan_info`
(`FanMode::from(raw & 0x0F)`) and re-encoding gives `b & 0x0F` when the
low nibble is in 0..=3 and 0 (Auto) otherwise; and `From<u8>` maps every
out-of-range value to Auto. -/
theorem fan_mode_decode_roundtrip (b : Nat) (hb : b < 256) :
    (FanMode.ofU8 (b &&& 0x0F)).toNat = (if b &&& 0x0F < 4 then b &&& 0x0F else 0) ∧
    (4 ≤ b &&& 0x0F → FanMode.ofU8 (b &&& 0x0F) = FanMode.Auto) ∧
    (4 ≤ b → FanMode.ofU8 b = FanMode.Auto) := by
  revert hb
  revert b
  decide

/-- Claim C3 witness at b = 0xA7 (low nibble 7, out of range). -/
theorem fan_mode_decode_roundtrip_witness :
    (0xA7 : Nat) < 256 ∧
    ((FanMode.ofU8 (0xA7 &&& 0x0F)).toNat =
        (if (0xA7 : Nat) &&& 0x0F < 4 then (0xA7 : Nat) &&& 0x0F else 0) ∧
      (4 ≤ (0xA7 : Nat) &&& 0x0F → FanMode.ofU8 (0xA7 &&& 0x0F) = FanMode.Auto) ∧
      (4 ≤ (0xA7 : Nat) → FanMode.ofU8 0xA7 = FanMode.Auto)) :=
  ⟨by decide, fan_mode_decode_roundtrip 0xA7 (by decide)⟩

/-- Claim C4: `set_cooler_boost(true)` then `set_cooler_boost(false)`
leaves bits 0..6 of register 0x98 unchanged; each call is a
read-modify-write touching only bit 7 of 0x98 and no other register. -/
theorem cooler_boost_preserves_low_bits (m : EcM)
    (hreg : m.regs MSI_ADDRESS_COOLER_BOOST < 256) :
    (set_cooler_boost false (set_cooler_boost true m)).regs MSI_ADDRESS_COOLER_BOOST
        &&& 0x7F = m.regs MSI_ADDRESS_COOLER_BOOST &&& 0x7F ∧
    (set_cooler_boost true m).regs MSI_ADDRESS_COOLER_BOOST
        = m.regs MSI_ADDRESS_COOLER_BOOST ||| 0x80 ∧
    (set_cooler_boost false m).regs MSI_ADDRESS_COOLER_BOOST
        = m.regs MSI_ADDRESS_COOLER_BOOST &&& 0x7F ∧
    (∀ b : Bool, ∀ a, a ≠ MSI_ADDRESS_COOLER_BOOST →
      (set_cooler_boost b m).regs a = m.regs a) := by
  have key : ∀ x < 256, ((x ||| 0x80) &&& 0x7F) &&& 0x7F = x &&& 0x7F := by decide
  have e1 : (set_cooler_boost true m).regs MSI_ADDRESS_COOLER_BOOST
      = m.regs MSI_ADDRESS_COOLER_BOOST ||| 0x80 := by
    simp [set_cooler_boost, ecRead, ecWrite]
  have e2 : ∀ m' : EcM, (set_cooler_boost false m').regs MSI_ADDRESS_COOLER_BOOST
      = m'.regs MSI_ADDRESS_COOLER_BOOST &&& 0x7F := fun m' => by
    simp [set_cooler_boost, ecRead, ecWrite]
  refine ⟨?_, e1, e2 m, ?_⟩
  · rw [e2, e1]
    exact key _ hreg
  · intro b a ha
    cases b <;> simp [set_cooler_boost, ecRead, ecWrite, ha]

/-- Claim C4 witness on a machine whose 0x98 register holds 0x25, as in
the spec's end-to-end scenario. -/
theorem cooler_boost_preserves_low_bits_witness :
    (ecWrite 0x98 0x25 emptyEc).regs MSI_ADDRESS_COOLER_BOOST < 256 ∧
    ((set_cooler_boost false (set_cooler_boost true (ecWrite 0x98 0x25 emptyEc))).regs
          MSI_ADDRESS_COOLER_BOOST &&& 0x7F =
        (ecWrite 0x98 0x25 emptyEc).regs MSI_ADDRESS_COOLER_BOOST &&& 0x7F ∧
      (set_cooler_boost true (ecWrite 0x98 0x25 emptyEc)).regs MSI_ADDRESS_COOLER_BOOST
          = (ecWrite 0x98 0x25 emptyEc).regs MSI_ADDRESS_COOLER_BOOST ||| 0x80 ∧
      (set_cooler_boost false (ecWrite 0x98 0x25 emptyEc)).regs MSI_ADDRESS_COOLER_BOOST
          = (ecWrite 0x98 0x25 emptyEc).regs MSI_ADDRESS_COOLER_BOOST &&& 0x7F ∧
      (∀ b : Bool, ∀ a, a ≠ MSI_ADDRESS_COOLER_BOOST →
        (set_cooler_boost b (ecWrite 0x98 0x25 emptyEc)).regs a =
          (ecWrite 0x98 0x25 emptyEc).regs a)) :=
  ⟨by decide, cooler_boost_preserves_low_bits (ecWrite 0x98 0x25 emptyEc) (by decide)⟩

/-- Claim C5: a percentage above 100 makes `set_manual_fan_speed` return
`InvalidSpeed(cpu.max(gpu))` with the machine — registers and write
trace — unchanged. -/
theorem manual_speed_rejects_invalid (c g : Nat) (m : EcM)
    (h : c > 100 ∨ g > 100) :
    set_manual_fan_speed c g m = (.error (.InvalidSpeed (max c g)), m) := by
  unfold set_manual_fan_speed
  rw [if_pos h]

/-- Claim C5 witness: `set_manual_fan_speed(101, 0)` returns
InvalidSpeed(101) and performs no write. -/
theorem manual_speed_rejects_invalid_witness :
    ((101 : Nat) > 100 ∨ (0 : Nat) > 100) ∧
    set_manual_fan_speed 101 0 emptyEc =
      (.error (.InvalidSpeed (max 101 0)), emptyEc) ∧
    max (101 : Nat) 0 = 101 :=
  ⟨Or.inl (by decide),
   manual_speed_rejects_invalid 101 0 emptyEc (Or.inl (by decide)),
   by decide⟩

/-- Claim C9: for every status stream on which IBF never clears, the IBF
wait loop performs exactly 10000 status reads and returns IoFailed; for
every status stream on which OBF never sets, the OBF wait loop likewise;
and on any stream at all, each loop performs at most 10000 reads. Each
loop's conclusion depends only on its own hypothesis. -/
theorem polling_exhausts_at_bound (status : Nat → Nat) :
    ((∀ i, status i &&& 0x02 ≠ 0) →
      wait_ec_ibf_clear status = (.error .IoFailed, 10000)) ∧
    ((∀ i, status i &&& 0x01 = 0) →
      wait_ec_obf_set status = (.error .IoFailed, 10000)) ∧
    (wait_ec_ibf_clear status).2 ≤ 10000 ∧
    (wait_ec_obf_set status).2 ≤ 10000 := by
  refine ⟨?_, ?_, ?_, ?_⟩
  · intro hibf
    have h := pollLoop_never_exits (fun b => b &&& 0x02 == 0) status
      (fun i => by simpa using hibf i) 10000 0
    simpa [wait_ec_ibf_clear] using h
  · intro hobf
    have h := pollLoop_never_exits (fun b => b &&& 0x01 != 0) status
      (fun i => by simpa using hobf i) 10000 0
    simpa [wait_ec_obf_set] using h
  · simpa [wait_ec_ibf_clear] using
      pollLoop_reads_le (fun b => b &&& 0x02 == 0) status 10000 0
  · simpa [wait_ec_obf_set] using
      pollLoop_reads_le (fun b => b &&& 0x01 != 0) status 10000 0

/-- Claim C9 witness: the constant byte 0x03 (IBF set, OBF set) keeps IBF
from clearing, and the constant byte 0x00 (IBF clear, OBF clear) keeps
OBF from setting; each loop exhausts under its own hypothesis alone. -/
theorem polling_exhausts_at_bound_witness :
    (∀ i : Nat, (fun _ : Nat => 0x03) i &&& 0x02 ≠ 0) ∧
    (∀ i : Nat, (fun _ : Nat => 0x00) i &&& 0x01 = 0) ∧
    wait_ec_ibf_clear (fun _ => 0x03) = (.error .IoFailed, 10000) ∧
    wait_ec_obf_set (fun _ => 0x00) = (.error .IoFailed, 10000) :=
  ⟨fun _ => by show (0x03 : Nat) &&& 0x02 ≠ 0; decide,
   fun _ => by show (0x00 : Nat) &&& 0x01 = 0; decide,
   (polling_exhausts_at_bound (fun _ => 0x03)).1
     (fun _ => by show (0x03 : Nat) &&& 0x02 ≠ 0; decide),
   (polling_exhausts_at_bound (fun _ => 0x00)).2.1
     (fun _ => by show (0x00 : Nat) &&& 0x01 = 0; decide)⟩

/-- Claim C10: `get_fan_info` returns Ok on every environment, and when
every underlying read fails it degrades to the all-default FanInfo. -/
theorem get_fan_info_always_ok (env : SensorEnv)
    (hcpu : env.hwmonCpuTemp = none) (hgpu : env.hwmonGpuTemp = none)
    (hdbg : ∀ a, env.dbg a = none)
    (hec : ∀ a, (env.ecRd a).toOption = none) :
    (∀ e : SensorEnv, (get_fan_info e).isOk = true) ∧
    get_fan_info env = .ok
      { cpu_fan_rpm := 0, gpu_fan_rpm := 0, cpu_fan_percent := 0,
        gpu_fan_percent := 0, cpu_temp := 0, gpu_temp := 0,
        fan_mode := .Auto, cooler_boost := false } := by
  constructor
  · intro e; rfl
  · simp [get_fan_info, read_fan_rpm_from_ec, readFanRpmAt, hcpu, hgpu,
      hdbg, hec, Option.orElse, FanMode.ofU8]

/-- Claim C10 witness: the environment where every read fails. -/
theorem get_fan_info_always_ok_witness :
    allFailEnv.hwmonCpuTemp = none ∧
    (∀ a, allFailEnv.dbg a = none) ∧
    (∀ e : SensorEnv, (get_fan_info e).isOk = true) ∧
    get_fan_info allFailEnv = .ok
      { cpu_fan_rpm := 0, gpu_fan_rpm := 0, cpu_fan_percent := 0,
        gpu_fan_percent := 0, cpu_temp := 0, gpu_temp := 0,
        fan_mode := .Auto, cooler_boost := false } :=
  ⟨rfl, fun _ => rfl,
   (get_fan_info_always_ok allFailEnv rfl rfl (fun _ => rfl) (fun _ => rfl)).1,
   (get_fan_info_always_ok allFailEnv rfl rfl (fun _ => rfl) (fun _ => rfl)).2⟩

/-- Claim C2: for every non-Custom scenario, applying its settings bundle
and reading back through `get_current_info` detects that same scenario,
with the super-battery bit dominating the shift-mode decoding. -/
theorem scenario_apply_roundtrip (s : UserScenario) (st : ScenarioSettings)
    (m : EcM) (h : settingsFor s = some st) :
    (get_current_info (apply_settings st m)).current_scenario = s ∧
    (∀ sm : ShiftMode, detect_scenario sm true = .SuperBattery) := by
  refine ⟨?_, fun sm => rfl⟩
  cases s <;> simp only [settingsFor] at h <;>
  first
  | exact Option.noConfusion h
  | (injection h with h2
     subst h2
     simp [apply_settings, get_current_info, ecRead, ecWrite, set_fan_mode,
       set_cooler_boost, apply_fan_curve, applyCurvePoints,
       ScenarioSettings.silentSettings, ScenarioSettings.balancedSettings,
       ScenarioSettings.highPerformanceSettings, ScenarioSettings.turboSettings,
       ScenarioSettings.superBatterySettings, FanCurve.silentCurve,
       FanCurve.defaultCurve, FanCurve.performanceCurve, ShiftMode.ofU8,
       detect_scenario, ShiftMode.toNat, FanMode.toNat, MSI_ADDRESS_FAN_MODE,
       MSI_ADDRESS_COOLER_BOOST, MSI_ADDRESS_SHIFT_MODE,
       MSI_ADDRESS_SUPER_BATTERY, MSI_ADDRESS_FAN1_BASE, MSI_ADDRESS_FAN2_BASE,
       pwmOfPercent])

/-- Claim C2 witness: the SuperBattery scenario round-trips on the empty
machine (exercising the dominance of the super-battery bit). -/
theorem scenario_apply_roundtrip_witness :
    settingsFor .SuperBattery = some .superBatterySettings ∧
    (get_current_info (apply_settings .superBatterySettings emptyEc)).current_scenario
      = UserScenario.SuperBattery ∧
    (∀ sm : ShiftMode, detect_scenario sm true = .SuperBattery) :=
  ⟨rfl,
   (scenario_apply_roundtrip .SuperBattery .superBatterySettings emptyEc rfl).1,
   (scenario_apply_roundtrip .SuperBattery .superBatterySettings emptyEc rfl).2⟩

/-- Claim C8: `set_scenario(Turbo)` issues exactly these EC writes in
order: SHIFT_MODE 0xD2 ← 0xC4, SUPER_BATTERY 0xEB ← 0x00, FAN_MODE
0xD4 ← 3, the read-modify-write of 0x98 setting bit 0x80, then the 12
performance-preset bytes at base 0x72 (temp bytes raw, speed percent p
as PWM byte (p*255)/100) and the same 12 bytes at base 0x8A. -/
theorem turbo_write_sequence (m : EcM) :
    (set_scenario .Turbo m).trace = m.trace ++
      [(0xD2, 0xC4), (0xEB, 0x00), (0xD4, 3),
       (0x98, m.regs 0x98 ||| 0x80),
       (0x72, 35), (0x73, 76), (0x74, 45), (0x75, 127), (0x76, 55), (0x77, 178),
       (0x78, 65), (0x79, 216), (0x7A, 75), (0x7B, 255), (0x7C, 85), (0x7D, 255),
       (0x8A, 35), (0x8B, 76), (0x8C, 45), (0x8D, 127), (0x8E, 55), (0x8F, 178),
       (0x90, 65), (0x91, 216), (0x92, 75), (0x93, 255), (0x94, 85), (0x95, 255)] := by
  simp [set_scenario, settingsFor, apply_settings, ecRead, ecWrite,
    set_fan_mode, set_cooler_boost, apply_fan_curve, applyCurvePoints,
    ScenarioSettings.turboSettings, FanCurve.performanceCurve,
    ShiftMode.toNat, FanMode.toNat, MSI_ADDRESS_FAN_MODE,
    MSI_ADDRESS_COOLER_BOOST, MSI_ADDRESS_SHIFT_MODE,
    MSI_ADDRESS_SUPER_BATTERY, MSI_ADDRESS_FAN1_BASE, MSI_ADDRESS_FAN2_BASE,
    pwmOfPercent, List.append_assoc]

/-! ## Curve interpolation lemmas (claims C6, C7) -/

/-- The clamped byte is at most 100, whatever the rational input. -/
theorem clampToByte_le_100 (q : ℚ) : clampToByte q ≤ 100 := by
  unfold clampToByte
  have h1 : max 0 (min q 100) ≤ (100 : ℚ) := max_le (by norm_num) (min_le_right _ _)
  have h2 : ⌊max 0 (min q 100)⌋ ≤ (100 : ℤ) := by
    have h3 := Int.floor_le_floor h1
    simpa using h3
  exact Int.toNat_le.mpr h2

/-- A percentage lower bound survives clamping and truncation. -/
theorem le_clampToByte (s : Nat) (q : ℚ) (hs : s ≤ 100) (hq : (s : ℚ) ≤ q) :
    s ≤ clampToByte q := by
  unfold clampToByte
  have h100 : (s : ℚ) ≤ 100 := by exact_mod_cast hs
  have h1 : (s : ℚ) ≤ max 0 (min q 100) :=
    le_trans (le_min hq h100) (le_max_right _ _)
  have h0 : (0 : ℤ) ≤ ⌊max 0 (min q 100)⌋ :=
    Int.le_floor.mpr (by simp)
  have h2 : (s : ℤ) ≤ ⌊max 0 (min q 100)⌋ := Int.le_floor.mpr (by push_cast; exact h1)
  exact (Int.le_toNat h0).mpr h2

/-- An upper bound by a natural number survives clamping and truncation. -/
theorem clampToByte_le (s : Nat) (q : ℚ) (hq : q ≤ (s : ℚ)) : clampToByte q ≤ s := by
  unfold clampToByte
  have h1 : max 0 (min q 100) ≤ (s : ℚ) :=
    max_le (by positivity) (le_trans (min_le_left _ _) hq)
  have h2 : ⌊max 0 (min q 100)⌋ ≤ (s : ℤ) := by
    have h3 := Int.floor_le_floor h1
    simpa using h3
  exact Int.toNat_le.mpr h2

/-- Clamping and truncation are monotone. -/
theorem clampToByte_mono {q q' : ℚ} (h : q ≤ q') : clampToByte q ≤ clampToByte q' := by
  unfold clampToByte
  refine Int.toNat_le_toNat (Int.floor_le_floor ?_)
  exact max_le_max le_rfl (min_le_min h le_rfl)

/-- A percentage value is a fixed point of the clamp. -/
theorem clampToByte_natCast (s : Nat) (hs : s ≤ 100) : clampToByte (s : ℚ) = s := by
  unfold clampToByte
  rw [min_eq_left (by exact_mod_cast hs), max_eq_right (by positivity)]
  simp

/-- The interpolation value is at least the left speed when speeds rise. -/
theorem interpQ_ge_left (p1 p2 : FanCurvePoint) (T : Nat)
    (hsle : p1.speed ≤ p2.speed) : (p1.speed : ℚ) ≤ interpQ p1 p2 T := by
  unfold interpQ
  have h : (0 : ℚ) ≤
      (((T - p1.temp : Nat) : ℚ) / ((p2.temp - p1.temp : Nat) : ℚ)) *
        ((p2.speed : ℚ) - (p1.speed : ℚ)) :=
    mul_nonneg (div_nonneg (by positivity) (by positivity))
      (sub_nonneg.mpr (by exact_mod_cast hsle))
  linarith

/-- The interpolation value is at most the right speed inside the
bracket when speeds rise. -/
theorem interpQ_le_right (p1 p2 : FanCurvePoint) (T : Nat)
    (h12 : p1.temp < p2.temp) (hT2 : T ≤ p2.temp)
    (hsle : p1.speed ≤ p2.speed) : interpQ p1 p2 T ≤ (p2.speed : ℚ) := by
  unfold interpQ
  have hd : (0 : ℚ) < ((p2.temp - p1.temp : Nat) : ℚ) := by
    exact_mod_cast Nat.sub_pos_of_lt h12
  have hr : ((T - p1.temp : Nat) : ℚ) / ((p2.temp - p1.temp : Nat) : ℚ) ≤ 1 := by
    rw [div_le_one hd]
    exact_mod_cast Nat.sub_le_sub_right hT2 p1.temp
  have hΔ : (0 : ℚ) ≤ (p2.speed : ℚ) - (p1.speed : ℚ) :=
    sub_nonneg.mpr (by exact_mod_cast hsle)
  have h := mul_le_of_le_one_left hΔ hr
  linarith

/-- The interpolation value is monotone in the temperature when speeds
rise. -/
theorem interpQ_mono (p1 p2 : FanCurvePoint) (T T' : Nat)
    (h12 : p1.temp < p2.temp) (hsle : p1.speed ≤ p2.speed) (hT : T ≤ T') :
    interpQ p1 p2 T ≤ interpQ p1 p2 T' := by
  unfold interpQ
  have hd : (0 : ℚ) < ((p2.temp - p1.temp : Nat) : ℚ) := by
    exact_mod_cast Nat.sub_pos_of_lt h12
  have hnum : ((T - p1.temp : Nat) : ℚ) ≤ ((T' - p1.temp : Nat) : ℚ) := by
    exact_mod_cast Nat.sub_le_sub_right hT p1.temp
  have hr := (div_le_div_iff_of_pos_right hd).mpr hnum
  have hΔ : (0 : ℚ) ≤ (p2.speed : ℚ) - (p1.speed : ℚ) :=
    sub_nonneg.mpr (by exact_mod_cast hsle)
  have h := mul_le_mul_of_nonneg_right hr hΔ
  linarith

/-- At the right endpoint the interpolation is exactly the right speed. -/
theorem interpQ_at_right (p1 p2 : FanCurvePoint) (h12 : p1.temp < p2.temp) :
    interpQ p1 p2 p2.temp = (p2.speed : ℚ) := by
  unfold interpQ
  have hd : ((p2.temp - p1.temp : Nat) : ℚ) ≠ 0 :=
    ne_of_gt (by exact_mod_cast Nat.sub_pos_of_lt h12)
  rw [div_self hd]
  ring

/-- The interpolated byte is always at most 100. -/
theorem interpSpeed_le_100 (p1 p2 : FanCurvePoint) (T : Nat) :
    interpSpeed p1 p2 T ≤ 100 := clampToByte_le_100 _

/-- The interpolated byte is at least the left speed when speeds rise. -/
theorem interpSpeed_ge_left (p1 p2 : FanCurvePoint) (T : Nat)
    (hsle : p1.speed ≤ p2.speed) (hs1 : p1.speed ≤ 100) :
    p1.speed ≤ interpSpeed p1 p2 T :=
  le_clampToByte _ _ hs1 (interpQ_ge_left p1 p2 T hsle)

/-- The interpolated byte is at most the right speed inside the bracket
when speeds rise. -/
theorem interpSpeed_le_right (p1 p2 : FanCurvePoint) (T : Nat)
    (h12 : p1.temp < p2.temp) (hT2 : T ≤ p2.temp)
    (hsle : p1.speed ≤ p2.speed) : interpSpeed p1 p2 T ≤ p2.speed :=
  clampToByte_le _ _ (interpQ_le_right p1 p2 T h12 hT2 hsle)

/-- The interpolated byte is monotone in the temperature when speeds
rise. -/
theorem interpSpeed_mono (p1 p2 : FanCurvePoint) (T T' : Nat)
    (h12 : p1.temp < p2.temp) (hsle : p1.speed ≤ p2.speed) (hT : T ≤ T') :
    interpSpeed p1 p2 T ≤ interpSpeed p1 p2 T' :=
  clampToByte_mono (interpQ_mono p1 p2 T T' h12 hsle hT)

/-- At the right endpoint the interpolated byte is exactly the right
speed. -/
theorem interpSpeed_at_right (p1 p2 : FanCurvePoint)
    (h12 : p1.temp < p2.temp) (hs2 : p2.speed ≤ 100) :
    interpSpeed p1 p2 p2.temp = p2.speed := by
  unfold interpSpeed
  rw [interpQ_at_right p1 p2 h12]
  exact clampToByte_natCast _ hs2

/-! ## Sorted-curve structure lemmas -/

/-- In a speed-monotone curve the head speed bounds the last speed. -/
theorem chain_speed_le_last : ∀ (ps : List FanCurvePoint) (p : FanCurvePoint),
    speedsMono (p :: ps) → p.speed ≤ (ps.getLastD p).speed := by
  intro ps
  induction ps with
  | nil => intro p _; simp [List.getLastD]
  | cons q rest ih =>
    intro p h
    obtain ⟨hpq, htail⟩ := List.chain'_cons.mp h
    rw [List.getLastD_cons]
    exact le_trans hpq (ih q htail)

/-- In a temperature-sorted curve the head temperature bounds the last
temperature. -/
theorem chain_temp_le_last : ∀ (ps : List FanCurvePoint) (p : FanCurvePoint),
    sortedByTemp (p :: ps) → p.temp ≤ (ps.getLastD p).temp := by
  intro ps
  induction ps with
  | nil => intro p _; simp [List.getLastD]
  | cons q rest ih =>
    intro p h
    obtain ⟨hpq, htail⟩ := List.chain'_cons.mp h
    rw [List.getLastD_cons]
    exact le_trans (le_of_lt hpq) (ih q htail)

/-- In a temperature-sorted curve the head is strictly cooler than every
tail point. -/
theorem sorted_head_lt_mem : ∀ (ps : List FanCurvePoint) (p : FanCurvePoint),
    sortedByTemp (p :: ps) → ∀ x ∈ ps, p.temp < x.temp := by
  intro ps
  induction ps with
  | nil => intro p _ x hx; cases hx
  | cons q rest ih =>
    intro p h x hx
    obtain ⟨hpq, htail⟩ := List.chain'_cons.mp h
    rcases List.mem_cons.mp hx with rfl | hx'
    · exact hpq
    · exact lt_trans hpq (ih q htail x hx')

/-- Every member of a sorted curve is the last point or strictly cooler
than it. -/
theorem mem_last_or_lt : ∀ (ps : List FanCurvePoint) (p : FanCurvePoint),
    sortedByTemp (p :: ps) → ∀ x ∈ p :: ps,
      x = ps.getLastD p ∨ x.temp < (ps.getLastD p).temp := by
  intro ps
  induction ps with
  | nil =>
    intro p _ x hx
    rcases List.mem_cons.mp hx with rfl | hx'
    · exact Or.inl rfl
    · cases hx'
  | cons q rest ih =>
    intro p h x hx
    obtain ⟨hpq, htail⟩ := List.chain'_cons.mp h
    rw [List.getLastD_cons]
    rcases List.mem_cons.mp hx with rfl | hx'
    · exact Or.inr (lt_of_lt_of_le hpq (chain_temp_le_last rest q htail))
    · exact ih q htail x hx'

/-- The right element of an adjacent pair is a member of the list. -/
theorem Adj.mem_right {a b : FanCurvePoint} :
    ∀ {l : List FanCurvePoint}, Adj a b l → b ∈ l := by
  intro l h
  induction h with
  | head t => exact List.mem_cons_of_mem a (List.mem_cons_self b t)
  | tail x _ ih => exact List.mem_cons_of_mem x ih

/-- The left element of an adjacent pair is a member of the list. -/
theorem Adj.mem_left {a b : FanCurvePoint} :
    ∀ {l : List FanCurvePoint}, Adj a b l → a ∈ l := by
  intro l h
  induction h with
  | head t => exact List.mem_cons_self a (b :: t)
  | tail x _ ih => exact List.mem_cons_of_mem x ih

/-- The right element of an adjacent pair lies in the tail. -/
theorem Adj.mem_tail {a b x : FanCurvePoint} {xs : List FanCurvePoint}
    (h : Adj a b (x :: xs)) : b ∈ xs := by
  cases h with
  | head t => exact List.mem_cons_self b t
  | tail _ h' => exact h'.mem_right

/-- A chain relation holds on every adjacent pair. -/
theorem Adj.rel_of_chain {R : FanCurvePoint → FanCurvePoint → Prop}
    {a b : FanCurvePoint} :
    ∀ {l : List FanCurvePoint}, List.Chain' R l → Adj a b l → R a b := by
  intro l hc h
  induction h with
  | head t => exact (List.chain'_cons.mp hc).1
  | tail x h' ih => exact ih hc.tail

/-- Every tail member has a predecessor adjacent to it. -/
theorem mem_tail_exists_adj : ∀ (ps : List FanCurvePoint) (p x : FanCurvePoint),
    x ∈ ps → ∃ a, Adj a x (p :: ps) := by
  intro ps
  induction ps with
  | nil => intro p x hx; cases hx
  | cons q rest ih =>
    intro p x hx
    rcases List.mem_cons.mp hx with rfl | hx'
    · exact ⟨p, Adj.head rest⟩
    · obtain ⟨a, ha⟩ := ih q x hx'
      exact ⟨a, Adj.tail p ha⟩

/-- A relation holding on all adjacent pairs gives a chain. -/
theorem chain_of_adj_speeds : ∀ l : List FanCurvePoint,
    (∀ a b, Adj a b l → a.speed ≤ b.speed) → speedsMono l := by
  intro l
  induction l with
  | nil => intro _; exact List.chain'_nil
  | cons x xs ih =>
    intro h
    cases xs with
    | nil => exact List.chain'_singleton x
    | cons y ys =>
      refine List.chain'_cons.mpr ⟨h x y (Adj.head ys), ?_⟩
      exact ih fun a b hab => h a b (Adj.tail x hab)

/-! ## Bracket-search lemmas -/

/-- The bracket search never exceeds 100. -/
theorem findBracket_le_100 : ∀ (ps : List FanCurvePoint) (p : FanCurvePoint)
    (T : Nat), findBracket T p ps ≤ 100 := by
  intro ps
  induction ps with
  | nil => intro p T; simp [findBracket]
  | cons q rest ih =>
    intro p T
    rw [findBracket]
    split
    · exact interpSpeed_le_100 p q T
    · exact ih q T

/-- Below the last point, the bracket search result is at least the head
speed of a sorted, speed-monotone, percentage curve. -/
theorem findBracket_ge_head : ∀ (ps : List FanCurvePoint) (p : FanCurvePoint)
    (T : Nat), sortedByTemp (p :: ps) → speedsMono (p :: ps) →
    speedsLe100 (p :: ps) → p.temp ≤ T → T < (ps.getLastD p).temp →
    p.speed ≤ findBracket T p ps := by
  intro ps
  induction ps with
  | nil =>
    intro p T _ _ _ hT1 hT2
    simp [List.getLastD] at hT2
    omega
  | cons q rest ih =>
    intro p T hs hm h100 hT1 hT2
    obtain ⟨hpq, hs'⟩ := List.chain'_cons.mp hs
    obtain ⟨hsq, hm'⟩ := List.chain'_cons.mp hm
    rw [List.getLastD_cons] at hT2
    rw [findBracket]
    by_cases hb : p.temp ≤ T ∧ T ≤ q.temp
    · rw [if_pos hb]
      exact interpSpeed_ge_left p q T hsq (h100 p (List.mem_cons_self p _))
    · rw [if_neg hb]
      have hq : q.temp ≤ T := by
        rcases not_and_or.mp hb with h | h
        · omega
        · omega
      have ih' := ih q T hs' hm'
        (fun x hx => h100 x (List.mem_cons_of_mem p hx)) hq hT2
      exact le_trans hsq ih'

/-- Below the last point, the bracket search result is at most the last
speed of a sorted, speed-monotone, percentage curve. -/
theorem findBracket_le_last : ∀ (ps : List FanCurvePoint) (p : FanCurvePoint)
    (T : Nat), sortedByTemp (p :: ps) → speedsMono (p :: ps) →
    speedsLe100 (p :: ps) → p.temp ≤ T → T < (ps.getLastD p).temp →
    findBracket T p ps ≤ (ps.getLastD p).speed := by
  intro ps
  induction ps with
  | nil =>
    intro p T _ _ _ hT1 hT2
    simp [List.getLastD] at hT2
    omega
  | cons q rest ih =>
    intro p T hs hm h100 hT1 hT2
    obtain ⟨hpq, hs'⟩ := List.chain'_cons.mp hs
    obtain ⟨hsq, hm'⟩ := List.chain'_cons.mp hm
    rw [List.getLastD_cons] at hT2 ⊢
    rw [findBracket]
    by_cases hb : p.temp ≤ T ∧ T ≤ q.temp
    · rw [if_pos hb]
      exact le_trans (interpSpeed_le_right p q T hpq hb.2 hsq)
        (chain_speed_le_last rest q hm')
    · rw [if_neg hb]
      have hq : q.temp ≤ T := by
        rcases not_and_or.mp hb with h | h
        · omega
        · omega
      exact ih q T hs' hm'
        (fun x hx => h100 x (List.mem_cons_of_mem p hx)) hq hT2

/-- Below the last point, the bracket search is monotone in the
temperature on a sorted, speed-monotone, percentage curve. -/
theorem findBracket_mono : ∀ (ps : List FanCurvePoint) (p : FanCurvePoint)
    (T1 T2 : Nat), sortedByTemp (p :: ps) → speedsMono (p :: ps) →
    speedsLe100 (p :: ps) → p.temp ≤ T1 → T1 ≤ T2 →
    T2 < (ps.getLastD p).temp →
    findBracket T1 p ps ≤ findBracket T2 p ps := by
  intro ps
  induction ps with
  | nil =>
    intro p T1 T2 _ _ _ hT1 hT12 hT2
    simp [List.getLastD] at hT2
    omega
  | cons q rest ih =>
    intro p T1 T2 hs hm h100 hT1 hT12 hT2
    obtain ⟨hpq, hs'⟩ := List.chain'_cons.mp hs
    obtain ⟨hsq, hm'⟩ := List.chain'_cons.mp hm
    have h100' : speedsLe100 (q :: rest) :=
      fun x hx => h100 x (List.mem_cons_of_mem p hx)
    rw [List.getLastD_cons] at hT2
    rw [findBracket, findBracket]
    by_cases hb2 : T2 ≤ q.temp
    · rw [if_pos ⟨hT1, le_trans hT12 hb2⟩, if_pos ⟨le_trans hT1 hT12, hb2⟩]
      exact interpSpeed_mono p q T1 T2 hpq hsq hT12
    · have hq2 : q.temp ≤ T2 := by omega
      by_cases hb1 : T1 ≤ q.temp
      · rw [if_pos ⟨hT1, hb1⟩, if_neg (fun hc => hb2 hc.2)]
        have h1 : interpSpeed p q T1 ≤ q.speed :=
          interpSpeed_le_right p q T1 hpq hb1 hsq
        have h2 : q.speed ≤ findBracket T2 q rest :=
          findBracket_ge_head rest q T2 hs' hm' h100' hq2 hT2
        exact le_trans h1 h2
      · rw [if_neg (fun hc => hb1 hc.2), if_neg (fun hc => hb2 hc.2)]
        exact ih q T1 T2 hs' hm' h100' (by omega) hT12 hT2

/-- On a sorted, percentage curve the bracket search evaluated at the
temperature of an interior or last tail node returns that node's speed. -/
theorem findBracket_eval : ∀ (ps : List FanCurvePoint) (p : FanCurvePoint)
    {a b : FanCurvePoint}, Adj a b (p :: ps) → sortedByTemp (p :: ps) →
    speedsLe100 (p :: ps) → findBracket b.temp p ps = b.speed := by
  intro ps
  induction ps with
  | nil =>
    intro p a b hadj _ _
    cases hadj with
    | tail _ hadj' => cases hadj'
  | cons q rest ih =>
    intro p a b hadj hs h100
    cases hadj with
    | head _ =>
      obtain ⟨hab, _⟩ := List.chain'_cons.mp hs
      rw [findBracket, if_pos ⟨le_of_lt hab, le_refl _⟩]
      exact interpSpeed_at_right p q hab
        (h100 q (List.mem_cons_of_mem p (List.mem_cons_self q rest)))
    | tail _ hadj' =>
      have hbq : q.temp < b.temp :=
        sorted_head_lt_mem rest q (List.chain'_cons.mp hs).2 b hadj'.mem_tail
      rw [findBracket, if_neg (fun hc => absurd hc.2 (by omega))]
      exact ih q hadj' (List.chain'_cons.mp hs).2
        (fun y hy => h100 y (List.mem_cons_of_mem p hy))

/-- On a sorted, percentage curve, `get_speed_for_temp` evaluated at a
node's temperature returns that node's speed. -/
theorem getSpeedAux_at_node {l : List FanCurvePoint} (hs : sortedByTemp l)
    (h100 : speedsLe100 l) {x : FanCurvePoint} (hx : x ∈ l) :
    getSpeedAux l x.temp = x.speed := by
  cases l with
  | nil => cases hx
  | cons p ps =>
    rcases List.mem_cons.mp hx with rfl | hx'
    · simp [getSpeedAux]
    · have hlt : p.temp < x.temp := sorted_head_lt_mem ps p hs x hx'
      have hne : ¬ x.temp ≤ p.temp := by omega
      rcases mem_last_or_lt ps p hs x hx with hxl | hxlt
      · rw [getSpeedAux, if_neg hne, if_pos (by rw [← hxl]), ← hxl]
      · rw [getSpeedAux, if_neg hne, if_neg (by omega)]
        obtain ⟨a, ha⟩ := mem_tail_exists_adj ps p x hx'
        exact findBracket_eval ps p ha hs h100

/-- Claim C6: on a curve satisfying the data-model invariants (strictly
ascending temperatures, percentage speeds), `get_speed_for_temp` always
returns a value in [0, 100]; the empty curve returns 50, a temperature
at or below the first point returns the first speed, and a temperature
at or above the last point returns the last speed. -/
theorem curve_speed_in_range (c : FanCurve) (T : Nat)
    (hs : sortedByTemp c.points) (h100 : speedsLe100 c.points) :
    c.get_speed_for_temp T ≤ 100 ∧
    (c.points = [] → c.get_speed_for_temp T = 50) ∧
    (∀ p ps, c.points = p :: ps → T ≤ p.temp →
      c.get_speed_for_temp T = p.speed) ∧
    (∀ p ps, c.points = p :: ps → (ps.getLastD p).temp ≤ T →
      c.get_speed_for_temp T = (ps.getLastD p).speed) := by
  refine ⟨?_, ?_, ?_, ?_⟩
  · show getSpeedAux c.points T ≤ 100
    cases hpc : c.points with
    | nil => simp [getSpeedAux]
    | cons p ps =>
      rw [hpc] at h100
      rw [getSpeedAux]
      by_cases h1 : T ≤ p.temp
      · rw [if_pos h1]
        exact h100 p (List.mem_cons_self p ps)
      · rw [if_neg h1]
        by_cases h2 : (ps.getLastD p).temp ≤ T
        · rw [if_pos h2]
          exact h100 _ (List.getLastD_mem_cons ps p)
        · rw [if_neg h2]
          exact findBracket_le_100 ps p T
  · intro h
    show getSpeedAux c.points T = 50
    rw [h]
    rfl
  · intro p ps h hT
    show getSpeedAux c.points T = p.speed
    rw [h, getSpeedAux, if_pos hT]
  · intro p ps h hT
    rw [h] at hs
    show getSpeedAux c.points T = (ps.getLastD p).speed
    rw [h]
    by_cases h1 : T ≤ p.temp
    · have hple : (ps.getLastD p).temp ≤ p.temp := le_trans hT h1
      rcases mem_last_or_lt ps p hs p (List.mem_cons_self p ps) with hpl | hplt
      · rw [getSpeedAux, if_pos h1]
        exact congrArg FanCurvePoint.speed hpl
      · omega
    · rw [getSpeedAux, if_neg h1, if_pos hT]

/-- Claim C6 witness at the default curve and T = 55. -/
theorem curve_speed_in_range_witness :
    sortedByTemp FanCurve.defaultCurve.points ∧
    speedsLe100 FanCurve.defaultCurve.points ∧
    (FanCurve.defaultCurve.get_speed_for_temp 55 ≤ 100 ∧
      (FanCurve.defaultCurve.points = [] →
        FanCurve.defaultCurve.get_speed_for_temp 55 = 50) ∧
      (∀ p ps, FanCurve.defaultCurve.points = p :: ps → 55 ≤ p.temp →
        FanCurve.defaultCurve.get_speed_for_temp 55 = p.speed) ∧
      (∀ p ps, FanCurve.defaultCurve.points = p :: ps →
        (ps.getLastD p).temp ≤ 55 →
        FanCurve.defaultCurve.get_speed_for_temp 55 = (ps.getLastD p).speed)) :=
  ⟨by simp [List.chain'_cons, List.chain'_singleton, FanCurve.defaultCurve],
   by decide,
   curve_speed_in_range FanCurve.defaultCurve 55
     (by simp [List.chain'_cons, List.chain'_singleton, FanCurve.defaultCurve])
     (by decide)⟩

/-- Claim C7: on a curve satisfying the data-model invariants, the map
`T ↦ get_speed_for_temp(T)` is monotone non-decreasing exactly when the
point speeds are non-decreasing along the curve. -/
theorem curve_monotone_iff_speeds_monotone (c : FanCurve)
    (hs : sortedByTemp c.points) (h100 : speedsLe100 c.points) :
    (∀ T1 T2, T1 ≤ T2 →
      c.get_speed_for_temp T1 ≤ c.get_speed_for_temp T2) ↔
      speedsMono c.points := by
  constructor
  · intro hmono
    apply chain_of_adj_speeds
    intro a b hadj
    have h1 : getSpeedAux c.points a.temp = a.speed :=
      getSpeedAux_at_node hs h100 hadj.mem_left
    have h2 : getSpeedAux c.points b.temp = b.speed :=
      getSpeedAux_at_node hs h100 hadj.mem_right
    have hab : a.temp < b.temp := Adj.rel_of_chain hs hadj
    have h3 : getSpeedAux c.points a.temp ≤ getSpeedAux c.points b.temp :=
      hmono a.temp b.temp (le_of_lt hab)
    rw [h1, h2] at h3
    exact h3
  · intro hmonoS T1 T2 hT
    show getSpeedAux c.points T1 ≤ getSpeedAux c.points T2
    cases hpc : c.points with
    | nil => simp [getSpeedAux]
    | cons p ps =>
      rw [hpc] at hs h100 hmonoS
      have htl : p.temp ≤ (ps.getLastD p).temp := chain_temp_le_last ps p hs
      have hsl : p.speed ≤ (ps.getLastD p).speed := chain_speed_le_last ps p hmonoS
      rw [getSpeedAux, getSpeedAux]
      by_cases h1 : T1 ≤ p.temp
      · rw [if_pos h1]
        by_cases h2 : T2 ≤ p.temp
        · rw [if_pos h2]
        · rw [if_neg h2]
          by_cases h3 : (ps.getLastD p).temp ≤ T2
          · rw [if_pos h3]
            exact hsl
          · rw [if_neg h3]
            exact findBracket_ge_head ps p T2 hs hmonoS h100 (by omega) (by omega)
      · rw [if_neg h1]
        have h2 : ¬ T2 ≤ p.temp := by omega
        rw [if_neg h2]
        by_cases h3 : (ps.getLastD p).temp ≤ T1
        · rw [if_pos h3, if_pos (by omega : (ps.getLastD p).temp ≤ T2)]
        · rw [if_neg h3]
          by_cases h4 : (ps.getLastD p).temp ≤ T2
          · rw [if_pos h4]
            exact findBracket_le_last ps p T1 hs hmonoS h100 (by omega) (by omega)
          · rw [if_neg h4]
            exact findBracket_mono ps p T1 T2 hs hmonoS h100 (by omega) hT (by omega)

/-- Claim C7 witness at the silent preset curve. -/
theorem curve_monotone_iff_witness :
    sortedByTemp FanCurve.silentCurve.points ∧
    speedsLe100 FanCurve.silentCurve.points ∧
    ((∀ T1 T2, T1 ≤ T2 →
        FanCurve.silentCurve.get_speed_for_temp T1 ≤
          FanCurve.silentCurve.get_speed_for_temp T2) ↔
      speedsMono FanCurve.silentCurve.points) :=
  ⟨by simp [List.chain'_cons, List.chain'_singleton, FanCurve.silentCurve],
   by decide,
   curve_monotone_iff_speeds_monotone FanCurve.silentCurve
     (by simp [List.chain'_cons, List.chain'_singleton, FanCurve.silentCurve])
     (by decide)⟩
